import Mathlib

/-!
Shallow embedding of the APA 7th formatter core (`src/app.py`):
the paragraph data model, the structural locator
(`locate_structural_indices`), the title-page / body / reference
normalization phases of `process_formatting`, and the citation
cross-reference matcher (`check_missing_citations`).

Indents are modelled in EMU, python-docx's internal unit
(`Inches(x)` = `x * 914400` EMU); so `Inches(0.5)` = 457200 and
`Inches(-0.5)` = -457200.  Paragraph text is modelled as the pure
character content of the paragraph's runs; an embedded hard page break
(`<w:br w:type="page"/>` in the paragraph XML) is modelled as the
boolean `hasBreak` field.  Every consumer of paragraph text in the
source strips the text first, so the newline glyph a break contributes
to python-docx's derived `text` property is never observable.
-/

namespace APA

/-- Paragraph alignment values used by the formatter
(`WD_PARAGRAPH_ALIGNMENT.LEFT` / `.CENTER`). -/
inductive Align where
  | left
  | center
  deriving DecidableEq

/-- Line-spacing rule used by the formatter (`WD_LINE_SPACING.DOUBLE`). -/
inductive Spacing where
  | double
  deriving DecidableEq

/-- A run: a sub-span of a paragraph with its own character formatting. -/
structure TextRun where
  bold : Option Bool := none
  italic : Option Bool := none
  fontName : Option String := none
  fontSize : Option Nat := none
  deriving DecidableEq

/-- A paragraph record of the paragraph store (python-docx `Paragraph`). -/
structure Para where
  text : String := ""
  runs : List TextRun := []
  hasBreak : Bool := false
  alignment : Option Align := none
  firstLineIndent : Option Int := none
  leftIndent : Option Int := none
  lineSpacing : Option Spacing := none
  deriving DecidableEq

/-- The whitespace class removed by Python `str.strip()` (ASCII part). -/
def isPyWS (c : Char) : Bool :=
  c == ' ' || c == '\t' || c == '\n' || c == '\r' || c == '\x0b' || c == '\x0c'

def trimChars (l : List Char) : List Char :=
  ((l.dropWhile isPyWS).reverse.dropWhile isPyWS).reverse

/-- Python `str.strip()`. -/
def pyStrip (s : String) : String := String.mk (trimChars s.data)

def pyLowerChar (c : Char) : Char :=
  if 'A' ≤ c && c ≤ 'Z' then Char.ofNat (c.toNat + 32) else c

/-- Python `str.lower()` (ASCII part). -/
def pyLower (s : String) : String := String.mk (s.data.map pyLowerChar)

/-- `p.text.strip()` is truthy: the paragraph is non-blank. -/
def isNonBlank (p : Para) : Bool := pyStrip p.text != ""

/-- The reference-boundary test of `locate_structural_indices`
(src/app.py line 64): trimmed, lower-cased text is exactly
`"reference"`, `"references"` or `"reference list"`. -/
def isRefTitle (p : Para) : Bool :=
  let t := pyLower (pyStrip p.text)
  t == "reference" || t == "references" || t == "reference list"

/-- `ref_start_index`: index of the first reference-title paragraph,
or the document length when none exists (src/app.py lines 55-66). -/
def findRefStart (ps : List Para) : Nat := ps.findIdx isRefTitle

/-- The leftover loop variable `p` of the reference scan at src/app.py
line 60: the last paragraph that scan examined.  If a reference title
was found the scan stopped there (`break`), otherwise it ran to the
end of the document.  The hard-break strategy at line 79 tests this
stale `p` (not `paragraphs[i]`).  Returns `false` for an empty
document, where the strategy loop never runs. -/
def leftoverHasBreak (ps : List Para) : Bool :=
  match ps.get? (findRefStart ps) with
  | some p => p.hasBreak
  | none =>
    match ps.getLast? with
    | some p => p.hasBreak
    | none => false

/-- `paragraphs[k].text.strip()` is truthy (out of range counts as
blank; the callers below only use in-range indices). -/
def nonBlankAt (ps : List Para) (k : Nat) : Bool :=
  match ps.get? k with
  | some p => isNonBlank p
  | none => false

/-- First index `k` with `j ≤ k < limit` whose paragraph is non-blank:
the "penetration" loop of the rule-of-six strategy (src/app.py
lines 98-101). -/
def firstNonBlankFrom (ps : List Para) (j limit : Nat) : Option Nat :=
  (List.range' j (limit - j)).find? (nonBlankAt ps)

/-- The counting loop of the rule-of-six strategy (src/app.py
lines 89-95): walk the window, counting non-blank paragraphs; when the
count reaches 6 return that index, else return the default 0. -/
def findSixthAux : List Para → Nat → Nat → Nat
  | [], _, _ => 0
  | p :: rest, c, i =>
    let c' := if isNonBlank p then c + 1 else c
    if c' = 6 then i else findSixthAux rest c' (i + 1)

def findSixth (ps : List Para) (limit : Nat) : Nat :=
  findSixthAux (ps.take limit) 0 0

/-- `locate_structural_indices(doc, has_title_page)` (src/app.py
lines 45-103), returning `(body_start_index, ref_start_index)`.
The hard-break strategy loop at lines 77-82 tests the stale loop
variable `p` left over from the reference scan, so it fires (at its
first iteration, giving `body_start = 1`) exactly when the window is
non-empty and that leftover paragraph contains a hard break. -/
def locate (ps : List Para) (hasTitlePage : Bool) : Nat × Nat :=
  let refStart := findRefStart ps
  let bodyStart :=
    if hasTitlePage then
      let limit := min 50 refStart
      if 0 < limit ∧ leftoverHasBreak ps then 1
      else (firstNonBlankFrom ps (findSixth ps limit + 1) limit).getD 0
    else 0
  (bodyStart, refStart)

/-- `apply_basic_font_style(paragraph)` (src/app.py lines 24-43):
double line spacing on the paragraph, Times New Roman 12pt on every
run.  (The trailing `try`-guarded write to the shared style object is
out of the paragraph model.) -/
def applyBasicFontStyle (p : Para) : Para :=
  { p with
    lineSpacing := some Spacing.double
    runs := p.runs.map fun r =>
      { r with fontName := some "Times New Roman", fontSize := some 12 } }

/-- Bold every run of a paragraph (`run.bold = True` loops). -/
def boldRuns (p : Para) : Para :=
  { p with runs := p.runs.map fun r => { r with bold := some true } }

/-- Index-aware map used to model loops that restyle a slice of the
paragraph list in place. -/
def mapIdxFrom (f : Nat → Para → Para) : Nat → List Para → List Para
  | _, [] => []
  | i, p :: rest => f i p :: mapIdxFrom f (i + 1) rest

/-- Loop A of the title-page phase (src/app.py lines 137-153): every
paragraph of the title range gets the basic font style and center
alignment; the first non-blank one (title-line count 1) additionally
gets bold runs. -/
def styledTitleRange (front : List Para) : List Para :=
  let fb := front.findIdx isNonBlank
  mapIdxFrom
    (fun i p =>
      let p1 := { applyBasicFontStyle p with alignment := some Align.center }
      if i = fb then boldRuns p1 else p1)
    0 front

/-- Index at which the `last_title_paragraph` object is re-found by the
identity scan at src/app.py lines 158-163: the index of the last
non-blank paragraph of the title range (python-docx proxy objects in
the captured `paragraphs` list are pairwise distinct, so the `==` scan
stops exactly at the object recorded by loop A). -/
def lastNonBlankIdxAux : List Para → Nat → Option Nat → Option Nat
  | [], _, acc => acc
  | p :: rest, i, acc =>
    lastNonBlankIdxAux rest (i + 1) (if isNonBlank p then some i else acc)

def lastNonBlankIdx (l : List Para) : Option Nat := lastNonBlankIdxAux l 0 none

/-- The `spacer_p` paragraph built at src/app.py lines 185-191: a fresh
empty paragraph, given the basic font style while it still has no
runs, then one run holding the hard page break. -/
def spacerPara : Para :=
  { text := ""
    runs := [{}]
    hasBreak := true
    lineSpacing := some Spacing.double }

/-- The styled title range kept after the blank-cleanup deletion of
src/app.py lines 165-170: everything up to and including the last
non-blank title paragraph (index `lastIdx`), then the survivors of the
blank-only deletion sweep over `(lastIdx, body_start)`. -/
def titleKept (ps : List Para) (bodyStart lastIdx : Nat) : List Para :=
  let styled := styledTitleRange (ps.take bodyStart)
  styled.take (lastIdx + 1) ++ (styled.drop (lastIdx + 1)).filter isNonBlank

/-- The title-page normalization block of `process_formatting`
(src/app.py lines 128-191), as a function of the paragraph list and
the located `body_start` (assumed in range; `titlePhase` guards). -/
def titleNormalize (ps : List Para) (bodyStart : Nat) : List Para :=
  let front := ps.take bodyStart
  let rest := ps.drop bodyStart
  match lastNonBlankIdx front with
  | none => styledTitleRange front ++ rest
  | some lastIdx =>
    let hasExisting :=
      ((front.get? lastIdx).map Para.hasBreak).getD false
        || ((ps.get? bodyStart).map Para.hasBreak).getD false
    if hasExisting then titleKept ps bodyStart lastIdx ++ rest
    else titleKept ps bodyStart lastIdx ++ spacerPara :: rest

/-- Phase 0 of `process_formatting` (src/app.py lines 128-191).  When
the phase runs, line 134 reads `paragraphs[body_start]`; if
`body_start = len(paragraphs)` that raises `IndexError`, modelled as
`none`. -/
def titlePhase (ps : List Para) (hasTitlePage : Bool) : Option (List Para) :=
  let bodyStart := (locate ps hasTitlePage).1
  if hasTitlePage ∧ 0 < bodyStart then
    if bodyStart < ps.length then some (titleNormalize ps bodyStart) else none
  else some ps

/-- The body-phase re-location of `body_start` (src/app.py
lines 203-209): index of the first paragraph containing a hard page
break, plus one; 0 when no paragraph contains one. -/
def newBodyStart (ps : List Para) : Nat :=
  let k := ps.findIdx Para.hasBreak
  if k < ps.length then k + 1 else 0

/-- Python `text.split()`: maximal runs of non-whitespace characters. -/
def pySplitAux : List Char → List Char → List String
  | [], acc => if acc.isEmpty then [] else [String.mk acc.reverse]
  | c :: rest, acc =>
    if isPyWS c then
      if acc.isEmpty then pySplitAux rest []
      else String.mk acc.reverse :: pySplitAux rest []
    else pySplitAux rest (c :: acc)

def pySplit (s : String) : List String := pySplitAux s.data []

/-- `text[-1] in ['.', ':', '?', '!']` on the stripped text. -/
def endsTerminal (t : String) : Bool :=
  match t.data.getLast? with
  | some c => c == '.' || c == ':' || c == '?' || c == '!'
  | none => false

/-- The heading heuristic of the body classifier (src/app.py
line 232): fewer than 15 words and no terminal punctuation. -/
def isHeadingText (t : String) : Bool :=
  (pySplit t).length < 15 && !endsTerminal t

/-- One iteration of the body-classification loop (src/app.py
lines 215-243) for the paragraph at index `i`. -/
def classifyPara (hasArticleTitle : Bool) (nbs i : Nat) (p : Para) : Para :=
  let t := pyStrip p.text
  if t = "" then p
  else
    let p1 := applyBasicFontStyle p
    if i = nbs ∧ hasArticleTitle then
      boldRuns { p1 with alignment := some Align.center, firstLineIndent := some 0 }
    else if isHeadingText t then
      boldRuns
        { p1 with
          alignment := some Align.left
          firstLineIndent := some 0
          leftIndent := some 0 }
    else
      { p1 with
        alignment := some Align.left
        firstLineIndent := some 457200
        leftIndent := some 0 }

/-- Phase I of `process_formatting` (src/app.py lines 196-243): re-locate
`body_start` (via the page break) and `ref_start` (via the locator with
`has_title_page=False`), then classify the body slice in place. -/
def bodyPhase (ps : List Para) (hasTitlePage hasArticleTitle : Bool) : List Para :=
  let nbs := if hasTitlePage then newBodyStart ps else 0
  let nrs := findRefStart ps
  mapIdxFrom
    (fun i p => if nbs ≤ i ∧ i < nrs then classifyPara hasArticleTitle nbs i p else p)
    0 ps

/-- `prev_p_ref.add_run().add_break(WD_BREAK.PAGE)` (src/app.py
line 253): one more run, now containing a hard page break. -/
def addBreakToPara (p : Para) : Para :=
  { p with hasBreak := true, runs := p.runs ++ [{}] }

/-- The rebuilt reference-title paragraph (src/app.py lines 255-261):
text replaced by the literal `"References"` (which rebuilds the runs,
dropping any embedded break), basic font style, centered, zero
first-line indent, bold. -/
def formatRefTitle (p : Para) : Para :=
  { p with
    text := "References"
    runs := [{ bold := some true, fontName := some "Times New Roman",
               fontSize := some 12 }]
    hasBreak := false
    alignment := some Align.center
    firstLineIndent := some 0
    lineSpacing := some Spacing.double }

/-- A rebuilt reference-entry paragraph (src/app.py lines 276-280):
`doc.add_paragraph(entry)` makes one plain run holding the text, then
basic font style and the hanging indent are applied. -/
def mkRefEntry (t : String) : Para :=
  { text := t
    runs := [{ fontName := some "Times New Roman", fontSize := some 12 }]
    firstLineIndent := some (-457200)
    leftIndent := some 457200
    lineSpacing := some Spacing.double }

/-- The trimmed texts of the non-blank paragraphs after the reference
title: the `ref_entries` collection loop (src/app.py lines 263-267). -/
def refEntryTexts (ps : List Para) (r : Nat) : List String :=
  ((ps.drop (r + 1)).filter isNonBlank).map fun p => pyStrip p.text

/-- The forced-page-break step at src/app.py lines 250-253: when a
preceding paragraph exists and carries no break yet, a break run is
appended to it. -/
def refBreakFix (ps : List Para) (r : Nat) : List Para :=
  if 0 < r ∧ !((ps.get? (r - 1)).map Para.hasBreak).getD false then
    match ps.get? (r - 1) with
    | some q => ps.set (r - 1) (addBreakToPara q)
    | none => ps
  else ps

/-- The title-rewrite step at src/app.py lines 255-261. -/
def refTitleFix (ps : List Para) (r : Nat) : List Para :=
  match ps.get? r with
  | some q => ps.set r (formatRefTitle q)
  | none => ps

/-- Phase II of `process_formatting` (src/app.py lines 248-280), with
`new_ref_start` re-derived by the locator exactly as at line 212.
Note the rebuild is unconditional in the source: the deletion loop at
lines 270-271 and the re-adding loop at lines 276-280 run whether or
not `sort_references` is set; only the `.sort()` call is guarded.
The entry texts are collected from positions after `r`, which the two
point edits of `refBreakFix`/`refTitleFix` (at `r - 1` and `r`) leave
untouched, so they equal the original suffix's trimmed texts. -/
def refPhase (ps : List Para) (sortRefs : Bool) : List Para :=
  let r := findRefStart ps
  if r < ps.length then
    let entries := refEntryTexts ps r
    let entries2 := if sortRefs then List.insertionSort (· ≤ ·) entries else entries
    (refTitleFix (refBreakFix ps r) r).take (r + 1) ++ entries2.map mkRefEntry
  else ps

/-- `process_formatting(doc, config)` (src/app.py lines 113-282),
composed from the three phases.  `none` models the `IndexError` raised
at line 134 when the located `body_start` is out of range. -/
def processFormatting (ps : List Para) (hasTitlePage hasArticleTitle sortRefs : Bool) :
    Option (List Para) :=
  (titlePhase ps hasTitlePage).map fun ps1 =>
    refPhase (bodyPhase ps1 hasTitlePage hasArticleTitle) sortRefs

/-! ### `check_missing_citations` (src/app.py lines 284-423) -/

/-- The state-machine marker of src/app.py line 302: trimmed lowered
text is exactly `"references"` or `"reference list"` (note: unlike the
locator, the singular `"reference"` is not a marker here). -/
def isRefMarker (t : String) : Bool :=
  pyLower t == "references" || pyLower t == "reference list"

/-- The partition loop of src/app.py lines 298-310: paragraphs before
the marker are concatenated (each stripped, plus a space) into the
body text; non-blank paragraphs after it are the reference items.
Marker paragraphs themselves are always skipped. -/
def splitBodyRefs : List Para → Bool → String × List String
  | [], _ => ("", [])
  | p :: rest, found =>
    let txt := pyStrip p.text
    if isRefMarker txt then splitBodyRefs rest true
    else if found then
      let (b, rs) := splitBodyRefs rest found
      (b, if txt != "" then txt :: rs else rs)
    else
      let (b, rs) := splitBodyRefs rest found
      (txt ++ " " ++ b, rs)

/-- A match of the regex `\((\d{4}|n\.d\.)\)` starting at the head of
the list: `'('`, then four digits or the literal `n.d.`, then `')'`;
returns the captured group. -/
def tryYearParenAt : List Char → Option String
  | '(' :: a :: b :: c :: d :: ')' :: _ =>
    if a.isDigit && b.isDigit && c.isDigit && d.isDigit then
      some (String.mk [a, b, c, d])
    else if a == 'n' && b == '.' && c == 'd' && d == '.' then some "n.d."
    else none
  | _ => none

/-- `re.search(r'\((\d{4}|n\.d\.)\)', s)`: leftmost match, returning
(start index of the match, captured year group). -/
def searchYearParen : List Char → Option (Nat × String)
  | [] => none
  | l@(_ :: rest) =>
    match tryYearParenAt l with
    | some y => some (0, y)
    | none => (searchYearParen rest).map fun iy => (iy.1 + 1, iy.2)

/-- A match of the regex `\d{4}|n\.d\.` starting at the head of the
list: four digits, or the literal `n.d.` (both four characters). -/
def tryYearishAt : List Char → Option String
  | a :: b :: c :: d :: _ =>
    if a.isDigit && b.isDigit && c.isDigit && d.isDigit then
      some (String.mk [a, b, c, d])
    else if a == 'n' && b == '.' && c == 'd' && d == '.' then some "n.d."
    else none
  | _ => none

/-- `re.search(r'(\d{4}|n\.d\.)', s)`: leftmost match with start
index and matched group. -/
def searchYearish : List Char → Option (Nat × String)
  | [] => none
  | l@(_ :: rest) =>
    match tryYearishAt l with
    | some y => some (0, y)
    | none => (searchYearish rest).map fun iy => (iy.1 + 1, iy.2)

/-- The character class kept by `re.sub(r'[^a-zA-Z一-龥]', '', ·)`:
ASCII letters and the CJK unified range. -/
def keepAuthorChar (c : Char) : Bool :=
  ('a' ≤ c && c ≤ 'z') || ('A' ≤ c && c ≤ 'Z')
    || (0x4e00 ≤ c.val && c.val ≤ 0x9fa5)

/-- The reference-key extraction for one entry (src/app.py
lines 319-348): leftmost `(year)` match; the text before it (required
non-empty), cut at the first comma, stripped, cut at the first space,
cleaned to letters, lower-cased.  Entries without a year contribute no
key. -/
def refKeyOf (s : String) : Option (String × String) :=
  match searchYearParen s.data with
  | none => none
  | some (i, y) =>
    if i = 0 then none
    else
      let firstSeg := (s.data.take i).takeWhile (· ≠ ',')
      let firstWord := (trimChars firstSeg).takeWhile (· ≠ ' ')
      let cleaned := String.mk (firstWord.filter keepAuthorChar)
      if cleaned != "" then some (pyLower cleaned, y) else none

/-- `re.findall(r'\(([^)]+)\)', s)` as a left-to-right scan: outside a
group (`none`) an `'('` opens one; inside (`some acc`) characters are
collected until `')'`, which emits the group when it is non-empty (the
regex requires at least one non-`)` character) and resumes outside; an
unclosed group at the end of input emits nothing. -/
def findParenGroupsAux : List Char → Option (List Char) → List (List Char)
  | [], _ => []
  | c :: rest, none =>
    if c = '(' then findParenGroupsAux rest (some [])
    else findParenGroupsAux rest none
  | c :: rest, some acc =>
    if c = ')' then
      if acc.isEmpty then findParenGroupsAux rest none
      else acc.reverse :: findParenGroupsAux rest none
    else findParenGroupsAux rest (some (c :: acc))

def findParenGroups (l : List Char) : List (List Char) :=
  findParenGroupsAux l none

/-- Python `content.split(';')`: split at every `';'`, keeping empty
pieces. -/
def splitSemisAux : List Char → List Char → List String
  | [], acc => [String.mk acc.reverse]
  | c :: rest, acc =>
    if c = ';' then String.mk acc.reverse :: splitSemisAux rest []
    else splitSemisAux rest (c :: acc)

def splitSemis (l : List Char) : List String := splitSemisAux l []

/-- Delimiter class of `re.split(r'[\s,&]+', ·)`. -/
def isTokenDelim (c : Char) : Bool := isPyWS c || c == ',' || c == '&'

/-- Maximal runs of non-delimiter characters (the non-empty tokens of
the `re.split`; the loop then filters empties anyway). -/
def splitTokensAux : List Char → List Char → List String
  | [], acc => if acc.isEmpty then [] else [String.mk acc.reverse]
  | c :: rest, acc =>
    if isTokenDelim c then
      if acc.isEmpty then splitTokensAux rest []
      else String.mk acc.reverse :: splitTokensAux rest []
    else splitTokensAux rest (c :: acc)

def splitTokens (l : List Char) : List String := splitTokensAux l []

/-- The stop-word list of src/app.py line 389. -/
def isIgnoreWord (t : String) : Bool :=
  let w := pyLower t
  w == "see" || w == "e.g." || w == "cf." || w == "also" || w == "table"
    || w == "figure"

/-- The in-text key extraction for one `;`-separated sub-citation
(src/app.py lines 373-411). -/
def citeKeyOf (cite : String) : Option (String × String) :=
  let c := pyStrip cite
  match searchYearish c.data with
  | none => none
  | some (i, y) =>
    let authorPart := trimChars (c.data.take i)
    let toks := (splitTokens authorPart).filter fun t => !isIgnoreWord t
    match toks with
    | [] => none
    | t :: _ =>
      let cleaned := String.mk (t.data.filter keepAuthorChar)
      if cleaned != "" then some (pyLower cleaned, y) else none

/-- The keys of one parenthesized group (src/app.py lines 364-411):
the group must contain a year-ish substring, then each `;`-separated
part contributes at most one key. -/
def contentKeys (content : String) : List (String × String) :=
  if (searchYearish content.data).isSome then
    (splitSemis content.data).filterMap citeKeyOf
  else []

/-- `body_keys` (src/app.py lines 354-411). -/
def bodyKeysOf (body : String) : Finset (String × String) :=
  (((findParenGroups body.data).map String.mk).flatMap contentKeys).toFinset

/-- `ref_keys` (src/app.py lines 316-348). -/
def refKeysOf (refs : List String) : Finset (String × String) :=
  (refs.filterMap refKeyOf).toFinset

/-- `check_missing_citations(doc)` (src/app.py lines 284-423):
`(missing_in_refs, missing_in_body)`, Python sets modelled as
`Finset`s (the source's final `list(...)` order is unspecified). -/
def checkMissingCitations (ps : List Para) :
    Finset (String × String) × Finset (String × String) :=
  let (body, refs) := splitBodyRefs ps false
  let refKeys := refKeysOf refs
  let bodyKeys := bodyKeysOf body
  (bodyKeys \ refKeys, refKeys \ bodyKeys)

/-! ### Concrete documents used as witnesses and counterexamples -/

/-- A document whose paragraph 0 carries a hard page break inside the
safe search window, while the last paragraph (the stale `p` the code
actually tests) does not. -/
def c1doc : List Para :=
  [{ text := "Title", hasBreak := true }, { text := " " },
    { text := "Body text" }]

/-- A document with a reference section whose single entry has an
italic run. -/
def c2doc : List Para :=
  [{ text := "References" },
    { text := "Wang, L. (2020). Study. Journal.",
      runs := [{ italic := some true }] }]

/-- A document the locator sends to the title-page normalizer with
`body_start = 1` although the title range `[0, 1)` is entirely
blank. -/
def c3doc : List Para := [{ text := " " }, { text := "X" }, { text := "Body" }]

/-- Scenario document: six non-blank title lines, a stray blank line,
then the body, with no pre-existing page break anywhere. -/
def scenarioDoc : List Para :=
  [{ text := "My Title" }, { text := "" }, { text := "A" }, { text := "B" },
    { text := "C" }, { text := "D" }, { text := "E" }, { text := "" },
    { text := "Body starts here." }]

/-- A document with a reference section holding two out-of-order
entries separated by a blank paragraph. -/
def c5doc : List Para :=
  [{ text := "Body." }, { text := "References" },
    { text := "b entry (2020)." }, { text := " " },
    { text := "a entry (2019)." }]

/-- Scenario 3 document: one in-text citation and one matching
reference entry. -/
def c6doc : List Para :=
  [{ text := "He said (Wang, 2020)." }, { text := "References" },
    { text := "Wang, L. (2020). Title. Journal." }]

/-- A body with a one-word heading and a full sentence. -/
def c8doc : List Para :=
  [{ text := "Intro" }, { text := "Method" },
    { text := "We used a mixed design." }]

/-- A title-page window with two non-blank paragraphs (fewer than six)
and no hard break anywhere. -/
def c10doc : List Para :=
  [{ text := "Title" }, { text := " " }, { text := "Body" }]

end APA

/-! ### Sanity checks of the embedding on concrete documents -/
open APA in
example :
    locate [{ text := "Title", hasBreak := true }, { text := "  " },
      { text := "Body text" }] true = (2, 3) := by decide

open APA in
example :
    locate [{ text := "T", hasBreak := true }] true = (1, 1) := by decide

open APA in
example : locate [{ text := "x" }, { text := " References " }] false = (0, 1) := by
  decide

-- title phase on an all-blank title range: styles but no structural change
open APA in
example :
    (titlePhase [{ text := " " }, { text := "X" }, { text := "Body" }] true).map
        (List.map Para.alignment) =
      some [some Align.center, none, none] := by decide

-- title phase, scenario-like: 6 non-blank title lines, blank, body, no break:
-- blank before body deleted, spacer with break inserted before body
open APA in
example :
    (titlePhase [{ text := "My Title" }, { text := "" }, { text := "A" },
          { text := "B" }, { text := "C" }, { text := "D" }, { text := "E" },
          { text := "" }, { text := "Body starts here." }] true).map
        (List.map fun p => (p.text, p.hasBreak)) =
      some [("My Title", false), ("", false), ("A", false), ("B", false),
        ("C", false), ("D", false), ("E", false), ("", true),
        ("Body starts here.", false)] := by decide

-- ref phase plain rebuild, italics lost even when not sorting
open APA in
example :
    ((refPhase [{ text := "References" },
          { text := "Wang, L. (2020). Study. Journal.",
            runs := [{ italic := some true }] }] false).get? 1).map
        (fun p => p.runs.map TextRun.italic) =
      some [none] := by decide

-- body classifier: "Method" is a heading, a sentence is body text
open APA in
example :
    (bodyPhase [{ text := "Method" }, { text := "We used a mixed design." }]
          false false).map
        (fun p => (p.alignment, p.firstLineIndent, p.runs.map TextRun.bold)) =
      [(some Align.left, some 0, []),
        (some Align.left, some 457200, [])] := by decide

-- scenario 3: matching pair -> both missing sets empty
open APA in
example :
    checkMissingCitations [{ text := "He said (Wang, 2020)." },
        { text := "References" },
        { text := "Wang, L. (2020). Title. Journal." }] =
      (∅, ∅) := by decide

-- scenario 4: (see Table 1) has no year -> no body key
open APA in
example :
    bodyKeysOf "As shown (see Table 1). " = ∅ := by decide

-- stop-words discarded: (see Wang, 2020) -> key (wang, 2020)
open APA in
example :
    bodyKeysOf "As shown (see Wang, 2020). " = {("wang", "2020")} := by decide

-- scenario 5: entry without year contributes no key
open APA in
example : refKeyOf "Anonymous source, retrieved online" = none := by decide

-- n.d. handling and multi-citation groups
open APA in
example :
    bodyKeysOf "X (Zhang & Li, 2021; WHO, n.d.) y. " =
      {("zhang", "2021"), ("who", "n.d.")} := by decide

namespace APA

/-! ### Claims C1, C2, C6, C7 -/

/-- Claim C7: for every document, `locate` returns `ref_start` equal to
the index of the first paragraph whose trimmed, case-folded text equals
exactly "reference", "references", or "reference list"; if no such
paragraph exists, `ref_start` equals the document length. -/
theorem c7_ref_start_spec (ps : List Para) (b : Bool) :
    (locate ps b).2 ≤ ps.length ∧
    (∀ i (h : i < ps.length), i < (locate ps b).2 →
      isRefTitle (ps.get ⟨i, h⟩) = false) ∧
    (∀ h : (locate ps b).2 < ps.length,
      isRefTitle (ps.get ⟨(locate ps b).2, h⟩) = true) ∧
    ((∀ p ∈ ps, isRefTitle p = false) → (locate ps b).2 = ps.length) := by
  have hloc : (locate ps b).2 = ps.findIdx isRefTitle := rfl
  refine ⟨?_, ?_, ?_, ?_⟩
  · rw [hloc]; exact List.findIdx_le_length isRefTitle
  · intro i h hi
    have hi' : i < ps.findIdx isRefTitle := hloc ▸ hi
    simpa using List.not_of_lt_findIdx hi'
  · intro h
    have h' : ps.findIdx isRefTitle < ps.length := hloc ▸ h
    simpa using List.findIdx_getElem (w := h')
  · intro hall
    rw [hloc]
    by_contra hne
    have hlt : ps.findIdx isRefTitle < ps.length :=
      lt_of_le_of_ne (List.findIdx_le_length isRefTitle) hne
    exact absurd (List.findIdx_getElem (w := hlt))
      (by simpa using hall _ (ps.getElem_mem hlt))

/-- Witness for C7 on a concrete document: paragraph 0 of `c6doc` lies
before the located reference boundary (index 1) and is indeed not a
reference title. -/
theorem c7_witness : isRefTitle (c6doc.get ⟨0, by decide⟩) = false :=
  (c7_ref_start_spec c6doc false).2.1 0 (by decide) (by decide)

/-- Claim C1 (refuting evidence): in `c1doc` the first paragraph of the
safe search window (window size 3) carries a hard page break at
index 0, so the claim demands `body_start = 1`; but
`locate_structural_indices` tests the stale loop variable `p` of the
reference scan (the last paragraph, which has no break), so the
hard-break strategy never fires and the rule-of-six fallback yields
`body_start = 2`. -/
theorem c1_code_behavior :
    (c1doc.get? 0).map Para.hasBreak = some true ∧
    c1doc.findIdx Para.hasBreak = 0 ∧
    min 50 (findRefStart c1doc) = 3 ∧
    leftoverHasBreak c1doc = false ∧
    locate c1doc true = (2, 3) := by decide

/-- Claim C2 (refuting evidence): with `sort_references = false`, the
reference phase still deletes every entry paragraph and re-adds its
trimmed text as a plain paragraph (the rebuild loops at src/app.py
lines 270-280 are outside the `sort_references` guard), so the input
entry's italic run is lost rather than preserved in place. -/
theorem c2_code_behavior :
    ((c2doc.get? 1).map fun p => p.runs.map TextRun.italic) =
      some [some true] ∧
    (((refPhase c2doc false).get? 1).map fun p => p.runs.map TextRun.italic) =
      some [none] ∧
    ((refPhase c2doc false).get? 1).map Para.text =
      some "Wang, L. (2020). Study. Journal." := by decide

/-- Claim C6: for every document, `check_missing_citations` returns
`missing_in_references = body_keys − reference_keys` and
`missing_in_body = reference_keys − body_keys`; whenever the two
extracted key sets are equal, both returned collections are empty. -/
theorem c6_reconciliation (ps : List Para) :
    checkMissingCitations ps =
      (bodyKeysOf (splitBodyRefs ps false).1 \ refKeysOf (splitBodyRefs ps false).2,
        refKeysOf (splitBodyRefs ps false).2 \ bodyKeysOf (splitBodyRefs ps false).1) ∧
    (bodyKeysOf (splitBodyRefs ps false).1 = refKeysOf (splitBodyRefs ps false).2 →
      checkMissingCitations ps = (∅, ∅)) := by
  rcases hsp : splitBodyRefs ps false with ⟨body, refs⟩
  constructor
  · simp [checkMissingCitations, hsp]
  · intro h
    simp only [hsp] at h
    simp [checkMissingCitations, hsp, h, Finset.sdiff_self]

/-- Witness for C6 on the Scenario-3 document: body and reference key
sets coincide (both are the single key `(wang, 2020)`), and the
matcher therefore reports two empty sets. -/
theorem c6_witness :
    bodyKeysOf (splitBodyRefs c6doc false).1 =
      refKeysOf (splitBodyRefs c6doc false).2 ∧
    checkMissingCitations c6doc = (∅, ∅) :=
  ⟨by decide, (c6_reconciliation c6doc).2 (by decide)⟩

end APA

namespace APA

/-! ### Claims C5 and C9 -/

theorem length_refBreakFix (ps : List Para) (r : Nat) :
    (refBreakFix ps r).length = ps.length := by
  unfold refBreakFix
  split
  · split <;> simp
  · rfl

theorem length_refTitleFix (ps : List Para) (r : Nat) :
    (refTitleFix ps r).length = ps.length := by
  unfold refTitleFix
  split <;> simp

theorem drop_len_append {α : Type} (l₁ l₂ : List α) (n : Nat)
    (h : l₁.length = n) : (l₁ ++ l₂).drop n = l₂ := by
  subst h
  exact List.drop_left l₁ l₂

/-- The output reference range after the rebuilt title consists exactly
of the rebuilt entry paragraphs. -/
theorem refPhase_drop (ps : List Para) (sortRefs : Bool)
    (h : findRefStart ps < ps.length) :
    (refPhase ps sortRefs).drop (findRefStart ps + 1) =
      ((if sortRefs then
          List.insertionSort (· ≤ ·) (refEntryTexts ps (findRefStart ps))
        else refEntryTexts ps (findRefStart ps)).map mkRefEntry) := by
  unfold refPhase
  rw [if_pos h]
  have hlen :
      ((refTitleFix (refBreakFix ps (findRefStart ps)) (findRefStart ps)).take
          (findRefStart ps + 1)).length = findRefStart ps + 1 := by
    simp only [List.length_take, length_refTitleFix, length_refBreakFix]
    omega
  exact drop_len_append _ _ _ hlen

/-- Claim C5: for every document with a reference section and
`sort_references` set, the output reference range after the
"References" title contains exactly the trimmed non-blank input entry
texts, in non-decreasing lexicographic (code-point) order, and the
number of output entry paragraphs equals the number of non-blank input
paragraphs after `ref_start`. -/
theorem c5_sorted_references (ps : List Para)
    (h : findRefStart ps < ps.length) :
    List.Perm (((refPhase ps true).drop (findRefStart ps + 1)).map Para.text)
      (((ps.drop (findRefStart ps + 1)).filter isNonBlank).map
        (fun p => pyStrip p.text)) ∧
    List.Sorted (· ≤ ·)
      (((refPhase ps true).drop (findRefStart ps + 1)).map Para.text) ∧
    ((refPhase ps true).drop (findRefStart ps + 1)).length =
      ((ps.drop (findRefStart ps + 1)).filter isNonBlank).length := by
  have hd := refPhase_drop ps true h
  simp only [if_pos] at hd
  have htext :
      ((refPhase ps true).drop (findRefStart ps + 1)).map Para.text =
        List.insertionSort (· ≤ ·) (refEntryTexts ps (findRefStart ps)) := by
    rw [hd, List.map_map]
    have : Para.text ∘ mkRefEntry = id := by
      funext t; rfl
    rw [this, List.map_id]
  refine ⟨?_, ?_, ?_⟩
  · rw [htext]
    exact List.perm_insertionSort (· ≤ ·) _
  · rw [htext]
    exact List.sorted_insertionSort (· ≤ ·) _
  · have := congrArg List.length htext
    simp only [List.length_map] at this
    rw [this, List.length_insertionSort]
    simp [refEntryTexts]

/-- Witness for C5 on `c5doc`: its reference section starts at index 1,
and the theorem applies. -/
theorem c5_witness :
    findRefStart c5doc < c5doc.length ∧
    (List.Perm (((refPhase c5doc true).drop (findRefStart c5doc + 1)).map Para.text)
      (((c5doc.drop (findRefStart c5doc + 1)).filter isNonBlank).map
        (fun p => pyStrip p.text)) ∧
    List.Sorted (· ≤ ·)
      (((refPhase c5doc true).drop (findRefStart c5doc + 1)).map Para.text) ∧
    ((refPhase c5doc true).drop (findRefStart c5doc + 1)).length =
      ((c5doc.drop (findRefStart c5doc + 1)).filter isNonBlank).length) :=
  ⟨by decide, c5_sorted_references c5doc (by decide)⟩

/-- Claim C9: for every document with a reference section, every
finalized reference entry paragraph carries the hanging indent:
first-line indent −0.5 inch (−457200 EMU) and left indent +0.5 inch
(+457200 EMU). -/
theorem c9_hanging_indent (ps : List Para) (sortRefs : Bool)
    (h : findRefStart ps < ps.length) :
    ∀ p ∈ (refPhase ps sortRefs).drop (findRefStart ps + 1),
      p.firstLineIndent = some (-457200) ∧ p.leftIndent = some 457200 := by
  intro p hp
  rw [refPhase_drop ps sortRefs h] at hp
  obtain ⟨t, _, rfl⟩ := List.mem_map.mp hp
  exact ⟨rfl, rfl⟩

/-- Witness for C9 on `c5doc` (not sorting): the rebuilt first entry
paragraph carries the hanging indent. -/
theorem c9_witness :
    findRefStart c5doc < c5doc.length ∧
    (mkRefEntry "b entry (2020).").firstLineIndent = some (-457200) ∧
    (mkRefEntry "b entry (2020).").leftIndent = some 457200 :=
  ⟨by decide,
    c9_hanging_indent c5doc false (by decide) (mkRefEntry "b entry (2020).")
      (by decide)⟩

end APA

namespace APA

/-! ### Claim C3 -/

theorem lastNonBlankIdxAux_all_blank (l : List Para) (j : Nat)
    (acc : Option Nat) (h : ∀ p ∈ l, isNonBlank p = false) :
    lastNonBlankIdxAux l j acc = acc := by
  induction l generalizing j acc with
  | nil => rfl
  | cons p rest ih =>
    have hp : isNonBlank p = false := h p (by simp)
    simp only [lastNonBlankIdxAux, hp, Bool.false_eq_true, if_false]
    exact ih (j + 1) acc fun q hq => h q (by simp [hq])

theorem lastNonBlankIdx_none (l : List Para)
    (h : ∀ p ∈ l, isNonBlank p = false) : lastNonBlankIdx l = none :=
  lastNonBlankIdxAux_all_blank l 0 none h

theorem findIdx_all_false {α : Type} (p : α → Bool) (l : List α)
    (h : ∀ x ∈ l, p x = false) : l.findIdx p = l.length := by
  by_contra hne
  have hlt : l.findIdx p < l.length :=
    lt_of_le_of_ne (List.findIdx_le_length p) hne
  exact absurd (List.findIdx_getElem (w := hlt))
    (by simp [h _ (l.getElem_mem hlt)])

theorem mapIdxFrom_eq_map (f : Nat → Para → Para) (g : Para → Para)
    (j : Nat) (l : List Para)
    (h : ∀ i p, j ≤ i → i < j + l.length → f i p = g p) :
    mapIdxFrom f j l = l.map g := by
  induction l generalizing j with
  | nil => rfl
  | cons p rest ih =>
    simp only [mapIdxFrom, List.map_cons]
    rw [h j p le_rfl (by simp),
      ih (j + 1) fun i q hi hlt => h i q (by omega) (by simp at hlt ⊢; omega)]

/-- With an all-blank title range, loop A styles and centers every
paragraph and bolds none. -/
theorem styledTitleRange_all_blank (front : List Para)
    (h : ∀ p ∈ front, isNonBlank p = false) :
    styledTitleRange front =
      front.map fun p =>
        { applyBasicFontStyle p with alignment := some Align.center } := by
  unfold styledTitleRange
  have hfb : front.findIdx isNonBlank = front.length :=
    findIdx_all_false _ _ h
  apply mapIdxFrom_eq_map
  intro i p hi hlt
  have hne : i ≠ front.findIdx isNonBlank := by rw [hfb]; omega
  simp only [hne, if_false]

/-- Claim C3 (counterexample): on `c3doc` the locator reports
`body_start = 1` with an all-blank title range, yet the title-page
block still mutates paragraph 0 (center alignment), so "performs no
mutation at all" is false. -/
theorem c3_counterexample :
    (locate c3doc true).1 = 1 ∧
    (∀ p ∈ c3doc.take 1, isNonBlank p = false) ∧
    (titlePhase c3doc true).map (List.map Para.alignment) =
      some [some Align.center, none, none] ∧
    c3doc.map Para.alignment = [none, none, none] := by decide

/-- Claim C3 as amended: when no non-blank paragraph exists in the
title range, the normalizer performs no structural mutation — no
paragraph is deleted or inserted, no text is changed, no run's bold is
changed — but every paragraph of the range still receives the basic
font style (double spacing, base font) and center alignment. -/
theorem c3_amended_no_structural_mutation (ps : List Para)
    (h0 : 0 < (locate ps true).1) (hlen : (locate ps true).1 < ps.length)
    (hblank : ∀ p ∈ ps.take (locate ps true).1, isNonBlank p = false) :
    titlePhase ps true =
      some (((ps.take (locate ps true).1).map fun p =>
          { applyBasicFontStyle p with alignment := some Align.center }) ++
        ps.drop (locate ps true).1) ∧
    (titlePhase ps true).map List.length = some ps.length ∧
    (titlePhase ps true).map (List.map Para.text) = some (ps.map Para.text) ∧
    (titlePhase ps true).map (List.map fun p => p.runs.map TextRun.bold) =
      some (ps.map fun p => p.runs.map TextRun.bold) := by
  have hphase : titlePhase ps true = some (titleNormalize ps (locate ps true).1) := by
    unfold titlePhase
    rw [if_pos ⟨rfl, h0⟩, if_pos hlen]
  have hnorm :
      titleNormalize ps (locate ps true).1 =
        styledTitleRange (ps.take (locate ps true).1) ++
          ps.drop (locate ps true).1 := by
    unfold titleNormalize
    dsimp only
    rw [lastNonBlankIdx_none _ hblank]
  have hstyled := styledTitleRange_all_blank _ hblank
  have hmain :
      titlePhase ps true =
        some (((ps.take (locate ps true).1).map fun p =>
            { applyBasicFontStyle p with alignment := some Align.center }) ++
          ps.drop (locate ps true).1) := by
    rw [hphase, hnorm, hstyled]
  refine ⟨hmain, ?_, ?_, ?_⟩
  · rw [hmain]
    simp only [Option.map_some', List.length_append, List.length_map,
      List.length_take, List.length_drop, Option.some.injEq]
    omega
  · rw [hmain]
    simp only [Option.map_some', List.map_append, List.map_map,
      Option.some.injEq]
    have htext :
        (Para.text ∘ fun p =>
            ({ applyBasicFontStyle p with alignment := some Align.center } : Para)) =
          Para.text := by
      funext p; rfl
    rw [htext, ← List.map_append, List.take_append_drop]
  · rw [hmain]
    simp only [Option.map_some', List.map_append, List.map_map,
      Option.some.injEq]
    have hbold :
        ((fun p => p.runs.map TextRun.bold) ∘ fun p =>
            ({ applyBasicFontStyle p with alignment := some Align.center } : Para)) =
          fun p : Para => p.runs.map TextRun.bold := by
      funext p
      simp [applyBasicFontStyle, List.map_map]
    rw [hbold, ← List.map_append, List.take_append_drop]

/-- Witness for the amended C3 on `c3doc`. -/
theorem c3_amended_witness :
    (0 < (locate c3doc true).1 ∧ (locate c3doc true).1 < c3doc.length ∧
      ∀ p ∈ c3doc.take (locate c3doc true).1, isNonBlank p = false) ∧
    titlePhase c3doc true =
      some (((c3doc.take (locate c3doc true).1).map fun p =>
          { applyBasicFontStyle p with alignment := some Align.center }) ++
        c3doc.drop (locate c3doc true).1) :=
  ⟨⟨by decide, by decide, by decide⟩,
    (c3_amended_no_structural_mutation c3doc (by decide) (by decide)
        (by decide)).1⟩

end APA

namespace APA

/-! ### Claim C10 -/

/-- If the running count plus the remaining non-blank paragraphs never
reaches 6, the counting loop leaves the target at its default 0. -/
theorem findSixthAux_eq_zero (l : List Para) (c i : Nat)
    (h : c + l.countP isNonBlank < 6) : findSixthAux l c i = 0 := by
  induction l generalizing c i with
  | nil => rfl
  | cons p rest ih =>
    rw [List.countP_cons] at h
    cases hp : isNonBlank p with
    | true =>
      have h' : c + 1 + rest.countP isNonBlank < 6 := by
        simp [hp] at h; omega
      have hc : ¬(c + 1 = 6) := by omega
      simp only [findSixthAux]
      simp [hp, hc]
      exact ih (c + 1) (i + 1) (by omega)
    | false =>
      have h' : c + rest.countP isNonBlank < 6 := by
        simp [hp] at h; omega
      have hc : ¬(c = 6) := by omega
      simp only [findSixthAux]
      simp [hp, hc]
      exact ih c (i + 1) (by omega)

/-- Specification of a successful linear search over `range'`. -/
theorem find?_range'_spec (q : Nat → Bool) (n : Nat) :
    ∀ j k, (List.range' j n).find? q = some k →
      j ≤ k ∧ k < j + n ∧ q k = true ∧
        ∀ m, j ≤ m → m < k → q m = false := by
  induction n with
  | zero => intro j k h; simp [List.range'] at h
  | succ n ih =>
    intro j k h
    rw [List.range'] at h
    cases hq : q j with
    | true =>
      rw [List.find?_cons_of_pos _ hq] at h
      obtain rfl : j = k := by simpa using h
      exact ⟨le_rfl, by omega, hq, fun m h1 h2 => absurd (lt_of_le_of_lt h1 h2) (lt_irrefl j)⟩
    | false =>
      rw [List.find?_cons_of_neg _ (by simp [hq])] at h
      obtain ⟨h1, h2, h3, h4⟩ := ih (j + 1) k h
      refine ⟨by omega, by omega, h3, fun m hm1 hm2 => ?_⟩
      rcases Nat.eq_or_lt_of_le hm1 with rfl | hlt
      · exact hq
      · exact h4 m hlt hm2

/-- Claim C10: with `has_title_page` set, the hard-break strategy not
firing, and the safe window containing at least one but fewer than six
non-blank paragraphs, the counting loop leaves the target index at its
default 0, so `body_start` becomes the first non-blank index `≥ 1`
inside the window, and stays 0 exactly when no such index exists. -/
theorem c10_rule_of_six_fallback (ps : List Para)
    (hnobrk : leftoverHasBreak ps = false)
    (hcnt1 : 1 ≤ (ps.take (min 50 (findRefStart ps))).countP isNonBlank)
    (hcnt6 : (ps.take (min 50 (findRefStart ps))).countP isNonBlank < 6) :
    findSixth ps (min 50 (findRefStart ps)) = 0 ∧
    (locate ps true).1 =
      (firstNonBlankFrom ps 1 (min 50 (findRefStart ps))).getD 0 ∧
    (∀ k, firstNonBlankFrom ps 1 (min 50 (findRefStart ps)) = some k →
      (locate ps true).1 = k ∧ 1 ≤ k ∧ k < min 50 (findRefStart ps) ∧
        nonBlankAt ps k = true ∧
        ∀ m, 1 ≤ m → m < k → nonBlankAt ps m = false) ∧
    (firstNonBlankFrom ps 1 (min 50 (findRefStart ps)) = none →
      (locate ps true).1 = 0 ∧
        ∀ m, 1 ≤ m → m < min 50 (findRefStart ps) →
          nonBlankAt ps m = false) := by
  have hlim : 1 ≤ min 50 (findRefStart ps) := by
    rcases Nat.eq_zero_or_pos (min 50 (findRefStart ps)) with h0 | h0
    · rw [h0] at hcnt1
      have hz : (ps.take 0).countP isNonBlank = 0 := rfl
      omega
    · exact h0
  have htarget : findSixth ps (min 50 (findRefStart ps)) = 0 := by
    unfold findSixth
    exact findSixthAux_eq_zero _ 0 0 (by simpa using hcnt6)
  have hlocate :
      (locate ps true).1 =
        (firstNonBlankFrom ps 1 (min 50 (findRefStart ps))).getD 0 := by
    unfold locate
    dsimp only
    rw [if_pos rfl,
      if_neg (by simp [hnobrk]), htarget]
  refine ⟨htarget, hlocate, ?_, ?_⟩
  · intro k hk
    have hspec := find?_range'_spec (nonBlankAt ps) (min 50 (findRefStart ps) - 1) 1 k hk
    obtain ⟨h1, h2, h3, h4⟩ := hspec
    refine ⟨by rw [hlocate, hk]; rfl, h1, by omega, h3, h4⟩
  · intro hk
    constructor
    · rw [hlocate, hk]; rfl
    · intro m hm1 hm2
      have := List.find?_eq_none.mp hk m
      have hmem : m ∈ List.range' 1 (min 50 (findRefStart ps) - 1) := by
        rw [List.mem_range'_1]
        omega
      simpa using this hmem

/-- Witness for C10 on `c10doc`: the window holds two non-blank
paragraphs (the title at 0 and the body at 2); `body_start` lands on
index 2, the first non-blank index `≥ 1`. -/
theorem c10_witness :
    (leftoverHasBreak c10doc = false ∧
      1 ≤ (c10doc.take (min 50 (findRefStart c10doc))).countP isNonBlank ∧
      (c10doc.take (min 50 (findRefStart c10doc))).countP isNonBlank < 6) ∧
    (locate c10doc true).1 = 2 :=
  ⟨⟨by decide, by decide, by decide⟩,
    ((c10_rule_of_six_fallback c10doc (by decide) (by decide)
          (by decide)).2.2.1 2 (by decide)).1⟩

end APA

namespace APA

/-! ### Claim C8 -/

theorem get?_mapIdxFrom (f : Nat → Para → Para) (j i : Nat) (l : List Para) :
    (mapIdxFrom f j l).get? i = (l.get? i).map (f (j + i)) := by
  induction l generalizing j i with
  | nil => simp [mapIdxFrom]
  | cons p rest ih =>
    cases i with
    | zero => simp [mapIdxFrom]
    | succ n =>
      simp only [mapIdxFrom, List.get?_cons_succ, ih, Nat.add_succ,
        Nat.succ_add]

/-- Claim C8: in the classified body range, any non-blank paragraph
other than the article-title position with fewer than 15 words and no
terminal punctuation becomes a Heading (left aligned, zero first-line
and left indent, bold runs); every other non-blank body paragraph
becomes BodyText (left aligned, 0.5-inch = 457200 EMU first-line
indent). -/
theorem c8_body_classifier (ps : List Para) (htp hat : Bool) (i : Nat)
    (p : Para) (hget : ps.get? i = some p)
    (hlo : (if htp then newBodyStart ps else 0) ≤ i)
    (hhi : i < findRefStart ps)
    (hnotitle : ¬(i = (if htp then newBodyStart ps else 0) ∧ hat = true))
    (hnb : isNonBlank p = true) :
    (isHeadingText (pyStrip p.text) = true →
      ((bodyPhase ps htp hat).get? i).map
          (fun q => (q.alignment, q.firstLineIndent, q.leftIndent)) =
        some (some Align.left, some 0, some 0) ∧
      ((bodyPhase ps htp hat).get? i).map
          (fun q => q.runs.all fun r => r.bold == some true) = some true) ∧
    (isHeadingText (pyStrip p.text) = false →
      ((bodyPhase ps htp hat).get? i).map
          (fun q => (q.alignment, q.firstLineIndent)) =
        some (some Align.left, some 457200)) := by
  have hout : (bodyPhase ps htp hat).get? i =
      some (classifyPara hat (if htp then newBodyStart ps else 0) i p) := by
    unfold bodyPhase
    dsimp only
    rw [get?_mapIdxFrom, hget]
    simp only [Option.map_some', Nat.zero_add]
    rw [if_pos ⟨hlo, hhi⟩]
  rw [hout]
  have ht : ¬(pyStrip p.text = "") := by
    simpa [isNonBlank, bne_iff_ne] using hnb
  unfold classifyPara
  dsimp only
  rw [if_neg ht, if_neg hnotitle]
  constructor
  · intro hh
    rw [if_pos hh]
    refine ⟨rfl, ?_⟩
    simp [boldRuns, applyBasicFontStyle, List.all_eq_true]
  · intro hh
    rw [if_neg (by simp [hh])]
    rfl

/-- Witness for C8 on `c8doc`: the one-word paragraph "Method" at body
index 1 is classified Heading. -/
theorem c8_witness :
    (c8doc.get? 1 = some { text := "Method" } ∧
      isNonBlank ({ text := "Method" } : Para) = true ∧
      isHeadingText (pyStrip ({ text := "Method" } : Para).text) = true) ∧
    ((bodyPhase c8doc false false).get? 1).map
        (fun q => (q.alignment, q.firstLineIndent, q.leftIndent)) =
      some (some Align.left, some 0, some 0) :=
  ⟨⟨by decide, by decide, by decide⟩,
    ((c8_body_classifier c8doc false false 1 { text := "Method" } (by decide)
          (by decide) (by decide) (by decide) (by decide)).1 (by decide)).1⟩

end APA

namespace APA

/-! ### Claim C4 -/

theorem lastNonBlankIdxAux_isSome (l : List Para) (j : Nat) (acc : Option Nat)
    (h : (∃ p ∈ l, isNonBlank p = true) ∨ acc.isSome = true) :
    (lastNonBlankIdxAux l j acc).isSome = true := by
  induction l generalizing j acc with
  | nil =>
    rcases h with ⟨p, hp, _⟩ | h
    · simp at hp
    · simpa [lastNonBlankIdxAux] using h
  | cons p rest ih =>
    simp only [lastNonBlankIdxAux]
    apply ih
    rcases h with ⟨q, hq, hnb⟩ | hacc
    · rcases List.mem_cons.mp hq with rfl | hq'
      · right; simp [hnb]
      · left; exact ⟨q, hq', hnb⟩
    · right
      cases hb : isNonBlank p <;> simp [hb, hacc]

theorem lastNonBlankIdx_isSome (l : List Para)
    (h : ∃ p ∈ l, isNonBlank p = true) : (lastNonBlankIdx l).isSome = true :=
  lastNonBlankIdxAux_isSome l 0 none (Or.inl h)

theorem lastNonBlankIdxAux_lt (l : List Para) (j : Nat) (acc : Option Nat)
    (hacc : ∀ a, acc = some a → a < j) (k : Nat)
    (h : lastNonBlankIdxAux l j acc = some k) : k < j + l.length := by
  induction l generalizing j acc with
  | nil =>
    have := hacc k h
    simpa using this
  | cons p rest ih =>
    simp only [lastNonBlankIdxAux] at h
    have hacc' : ∀ a, (if isNonBlank p = true then some j else acc) = some a →
        a < j + 1 := by
      intro a ha
      by_cases hb : isNonBlank p = true
      · rw [if_pos hb] at ha
        obtain rfl : j = a := by simpa using ha
        omega
      · rw [if_neg hb] at ha
        have := hacc a ha
        omega
    have h' := ih (j + 1) _ hacc' h
    simp only [List.length_cons] at *
    omega

theorem lastNonBlankIdx_lt (l : List Para) (k : Nat)
    (h : lastNonBlankIdx l = some k) : k < l.length := by
  have := lastNonBlankIdxAux_lt l 0 none (by intro a ha; simp at ha) k h
  simpa using this

/-- Loop A does not touch a paragraph's break marker. -/
theorem styledTitleRange_get?_hasBreak (front : List Para) (i : Nat) :
    ((styledTitleRange front).get? i).map Para.hasBreak =
      (front.get? i).map Para.hasBreak := by
  unfold styledTitleRange
  dsimp only
  rw [get?_mapIdxFrom]
  cases h : front.get? i with
  | none => simp
  | some p =>
    simp only [Option.map_some']
    congr 1
    dsimp only
    split <;> rfl

/-- After the body-phase re-location, the paragraph immediately
preceding `new_body_start` contains the hard break, as soon as one
exists at all. -/
theorem newBodyStart_break (l : List Para)
    (h : ∃ p ∈ l, p.hasBreak = true) :
    0 < newBodyStart l ∧
      (l.get? (newBodyStart l - 1)).map Para.hasBreak = some true := by
  have hlt : l.findIdx Para.hasBreak < l.length :=
    List.findIdx_lt_length_of_exists h
  unfold newBodyStart
  dsimp only
  rw [if_pos hlt]
  refine ⟨Nat.succ_pos _, ?_⟩
  simp only [Nat.add_sub_cancel]
  rw [List.get?_eq_getElem?, List.getElem?_eq_getElem hlt]
  simp [List.findIdx_getElem (w := hlt)]

/-- Evaluation of the title-page normalization when a last non-blank
title paragraph exists. -/
theorem titleNormalize_some (ps : List Para) (b L : Nat)
    (hL : lastNonBlankIdx (ps.take b) = some L) :
    titleNormalize ps b =
      if ((((ps.take b).get? L).map Para.hasBreak).getD false
          || ((ps.get? b).map Para.hasBreak).getD false) = true then
        titleKept ps b L ++ ps.drop b
      else titleKept ps b L ++ spacerPara :: ps.drop b := by
  unfold titleNormalize
  dsimp only
  rw [hL]

/-- Claim C4: with a title page located (`0 < body_start < len`) and a
non-blank title paragraph present, after Title Page Normalization the
paragraph immediately preceding the re-located `body_start` contains a
hard page break; and when neither the last non-blank title paragraph
nor the first body paragraph already carried one, exactly one new
empty break-carrying paragraph (`spacerPara`) is inserted immediately
before the first body paragraph, the body suffix staying unchanged. -/
theorem c4_title_page_break (ps : List Para)
    (h0 : 0 < (locate ps true).1)
    (hlen : (locate ps true).1 < ps.length)
    (hnb : ∃ p ∈ ps.take (locate ps true).1, isNonBlank p = true) :
    titlePhase ps true = some (titleNormalize ps (locate ps true).1) ∧
    (0 < newBodyStart (titleNormalize ps (locate ps true).1) ∧
      ((titleNormalize ps (locate ps true).1).get?
          (newBodyStart (titleNormalize ps (locate ps true).1) - 1)).map
        Para.hasBreak = some true) ∧
    (∀ L, lastNonBlankIdx (ps.take (locate ps true).1) = some L →
      ((ps.take (locate ps true).1).get? L).map Para.hasBreak = some false →
      (ps.get? (locate ps true).1).map Para.hasBreak = some false →
      titleNormalize ps (locate ps true).1 =
        titleKept ps (locate ps true).1 L ++
          spacerPara :: ps.drop (locate ps true).1) ∧
    spacerPara.text = "" ∧ spacerPara.hasBreak = true := by
  obtain ⟨L, hL⟩ : ∃ L, lastNonBlankIdx (ps.take (locate ps true).1) = some L :=
    Option.isSome_iff_exists.mp (lastNonBlankIdx_isSome _ hnb)
  have hphase : titlePhase ps true = some (titleNormalize ps (locate ps true).1) := by
    unfold titlePhase
    rw [if_pos ⟨rfl, h0⟩, if_pos hlen]
  have heq := titleNormalize_some ps (locate ps true).1 L hL
  have hmemstyled :
      (((ps.take (locate ps true).1).get? L).map Para.hasBreak).getD false = true →
        ∃ q ∈ titleKept ps (locate ps true).1 L, q.hasBreak = true := by
    intro hx
    rcases hq : (ps.take (locate ps true).1).get? L with _ | q
    · rw [hq] at hx; simp at hx
    · rw [hq] at hx
      simp only [Option.map_some', Option.getD_some] at hx
      have hsty :
          ((styledTitleRange (ps.take (locate ps true).1)).get? L).map Para.hasBreak =
            some true := by
        rw [styledTitleRange_get?_hasBreak, hq, Option.map_some', hx]
      obtain ⟨q', hq', hbq'⟩ := Option.map_eq_some'.mp hsty
      refine ⟨q', ?_, hbq'⟩
      unfold titleKept
      dsimp only
      apply List.mem_append_left
      have hget : ((styledTitleRange (ps.take (locate ps true).1)).take (L + 1)).get? L =
          some q' := by
        rw [List.get?_take (by omega), hq']
      exact List.get?_mem hget
  have hmemdrop :
      ((ps.get? (locate ps true).1).map Para.hasBreak).getD false = true →
        ∃ q ∈ ps.drop (locate ps true).1, q.hasBreak = true := by
    intro hy
    rcases hq : ps.get? (locate ps true).1 with _ | q
    · rw [hq] at hy; simp at hy
    · rw [hq] at hy
      simp only [Option.map_some', Option.getD_some] at hy
      refine ⟨q, ?_, hy⟩
      have hget : (ps.drop (locate ps true).1).get? 0 = some q := by
        rw [List.get?_drop]
        simpa using hq
      exact List.get?_mem hget
  have hbreak : ∃ q ∈ titleNormalize ps (locate ps true).1, q.hasBreak = true := by
    cases he :
        ((((ps.take (locate ps true).1).get? L).map Para.hasBreak).getD false
          || ((ps.get? (locate ps true).1).map Para.hasBreak).getD false) with
    | true =>
      rw [heq, if_pos he]
      rcases Bool.or_eq_true_iff.mp he with hx | hy
      · obtain ⟨q, hq, hb⟩ := hmemstyled hx
        exact ⟨q, List.mem_append_left _ hq, hb⟩
      · obtain ⟨q, hq, hb⟩ := hmemdrop hy
        exact ⟨q, List.mem_append_right _ hq, hb⟩
    | false =>
      rw [heq, if_neg (by simp only [he]; exact Bool.false_ne_true)]
      exact ⟨spacerPara, List.mem_append_right _ (List.mem_cons_self _ _), rfl⟩
  refine ⟨hphase, newBodyStart_break _ hbreak, ?_, rfl, rfl⟩
  intro L' hL' hb1 hb2
  obtain rfl : L = L' := by
    rw [hL] at hL'
    simpa using hL'
  rw [heq, if_neg (by rw [hb1, hb2]; simp)]

/-- Witness for C4 on `scenarioDoc`: the locator puts `body_start` at
index 8, the title range has non-blank content, no break pre-exists,
and the theorem applies. -/
theorem c4_witness :
    (0 < (locate scenarioDoc true).1 ∧
      (locate scenarioDoc true).1 < scenarioDoc.length ∧
      ∃ p ∈ scenarioDoc.take (locate scenarioDoc true).1, isNonBlank p = true) ∧
    (0 < newBodyStart (titleNormalize scenarioDoc (locate scenarioDoc true).1) ∧
      ((titleNormalize scenarioDoc (locate scenarioDoc true).1).get?
          (newBodyStart (titleNormalize scenarioDoc (locate scenarioDoc true).1) - 1)).map
        Para.hasBreak = some true) ∧
    titleNormalize scenarioDoc (locate scenarioDoc true).1 =
      titleKept scenarioDoc (locate scenarioDoc true).1 6 ++
        spacerPara :: scenarioDoc.drop (locate scenarioDoc true).1 :=
  ⟨⟨by decide, by decide, by decide⟩,
    (c4_title_page_break scenarioDoc (by decide) (by decide) (by decide)).2.1,
    (c4_title_page_break scenarioDoc (by decide) (by decide) (by decide)).2.2.1 6
      (by decide) (by decide) (by decide)⟩

end APA
